import Mathlib

/-!
# Timesheet validator: shallow embedding and verification

This file embeds the core of the timesheet-validator application
(the period-based CSV parser `src/utils/csvParser.ts`, the rule engine
`src/utils/validator.ts`, and the CSV export serializer in
`src/components/TimesheetTable.tsx`) as executable Lean definitions and
proves properties of the embedded code.

Modelling conventions:
* JavaScript numbers are modelled as exact rationals (`ℚ`); the numeric
  literals `0.01`, `14`, `80` of the source become exact rational constants.
* JavaScript strings are Lean `String`s; `value.trim()`,
  `toLowerCase()` and `parseFloat` are modelled by `jsTrim`, `jsToLower`
  and `parseNumber` below (decimal notation; exponent notation and
  `Infinity` are not modelled).
* `new Date(s)` is modelled by `jsDateMs`, which parses ISO `YYYY-MM-DD`
  strings to milliseconds since the Unix epoch (UTC midnight, exactly as
  JavaScript treats date-only ISO strings) and returns `none` (= `NaN`)
  otherwise.
* The wall clock read by the validator (`new Date()` and the derived
  `setFullYear(year - 1)` value) is passed explicitly as a `Clock`.
* Number-to-string interpolation inside finding messages is modelled by
  `ℚ`'s `toString` (`qStr`); messages are opaque payloads for every
  property proved here, only their fixed literal portions are relied on.
-/

/-- Severity of a finding, source `ValidationError.severity : 'error' | 'warning'`. -/
inductive Severity where
  | error
  | warning
deriving DecidableEq, Repr, BEq

/-- Source interface `ValidationError` (types/timesheet.ts). -/
structure ValidationError where
  row : Nat
  field : String
  message : String
  severity : Severity
deriving DecidableEq, Repr

/-- Source interface `ValidationResult` (types/timesheet.ts). -/
structure ValidationResult where
  isValid : Bool
  errors : List ValidationError
  warnings : List ValidationError
deriving DecidableEq, Repr

/-- Source interface `TimesheetEntry` (types/timesheet.ts, period-based version). -/
structure TimesheetEntry where
  employeeId : String
  startDate : String
  endDate : String
  timesheetStatus : String
  scheduleHours : ℚ
  reportedHours : ℚ
  regularHours : ℚ
  overtimeHours : ℚ
  holidayHours : ℚ
  leaveHours : ℚ
  totalHours : ℚ
deriving DecidableEq, Repr

/-- The wall-clock state the validator reads: `new Date()` in milliseconds and
the value produced by `yearAgo.setFullYear(currentDate.getFullYear() - 1)`. -/
structure Clock where
  nowMs : Int
  yearAgoMs : Int
deriving DecidableEq, Repr

/-! ## JavaScript string primitives -/

/-- JS whitespace characters relevant to `trim` / `parseFloat` (ASCII subset). -/
def isWS (c : Char) : Bool :=
  c == ' ' || c == '\t' || c == '\n' || c == '\r' || c == '\x0b' || c == '\x0c'

/-- Remove trailing whitespace from a character list. -/
def rtrimList (l : List Char) : List Char :=
  (l.reverse.dropWhile isWS).reverse

/-- Remove leading and trailing whitespace from a character list. -/
def trimList (l : List Char) : List Char :=
  rtrimList (l.dropWhile isWS)

/-- Model of JS `String.prototype.trim`. -/
def jsTrim (s : String) : String :=
  ⟨trimList s.data⟩

/-- Model of JS `String.prototype.toLowerCase` (ASCII). -/
def jsToLower (s : String) : String :=
  ⟨s.data.map Char.toLower⟩

/-- Numeric value of a list of decimal digit characters. -/
def natOfDigits (ds : List Char) : Nat :=
  ds.foldl (fun a c => 10 * a + (c.toNat - 48)) 0

/-- Value of a fractional digit string (digits after the decimal point). -/
def fracOfDigits (ds : List Char) : ℚ :=
  (natOfDigits ds : ℚ) / (10 ^ ds.length)

/-- Parse an unsigned decimal mantissa (`123`, `123.45`, `.45`, `123.`);
`none` when no digit is consumed. Trailing characters are ignored, as in
JS `parseFloat`. -/
def parseMantissa (l : List Char) : Option ℚ :=
  if (l.dropWhile Char.isDigit).head? = some '.' then
    if (l.takeWhile Char.isDigit).isEmpty
        && ((l.dropWhile Char.isDigit).tail.takeWhile Char.isDigit).isEmpty then none
    else some ((natOfDigits (l.takeWhile Char.isDigit) : ℚ)
      + fracOfDigits ((l.dropWhile Char.isDigit).tail.takeWhile Char.isDigit))
  else if (l.takeWhile Char.isDigit).isEmpty then none
  else some (natOfDigits (l.takeWhile Char.isDigit))

/-- Parse an optionally signed decimal mantissa. -/
def parseSigned (l : List Char) : Option ℚ :=
  if l.head? = some '-' then (parseMantissa l.tail).map (fun q => -q)
  else if l.head? = some '+' then parseMantissa l.tail
  else parseMantissa l

/-- Model of JS `parseFloat` on decimal notation: skip leading whitespace,
parse an optionally signed decimal number, ignore the rest; `none` is `NaN`. -/
def parseNumber (s : String) : Option ℚ :=
  parseSigned (s.data.dropWhile isWS)

/-- Model of the post-processing conversion `parseFloat(x) || 0` used by the
parser: `NaN` (and `0` itself) become `0`. -/
def toNumber (s : String) : ℚ :=
  (parseNumber s).getD 0

/-! ## JavaScript `Date` model (ISO `YYYY-MM-DD`) -/

/-- Leap-year test (proleptic Gregorian, as JS `Date`). -/
def isLeap (y : Int) : Bool :=
  y % 4 == 0 && (y % 100 != 0 || y % 400 == 0)

/-- Days in a month (1-based month). -/
def daysInMonth (y : Int) (m : Nat) : Nat :=
  if m == 2 then (if isLeap y then 29 else 28)
  else if m == 4 || m == 6 || m == 9 || m == 11 then 30
  else 31

/-- Days from the civil epoch 1970-01-01 to year `y`, month `m`, day `d`
(Howard Hinnant's `days_from_civil`, using floor division). -/
def daysFromCivil (y : Int) (m d : Nat) : Int :=
  let y2 : Int := if m ≤ 2 then y - 1 else y
  let era : Int := (if 0 ≤ y2 then y2 else y2 - 399).fdiv 400
  let yoe : Int := y2 - era * 400
  let mp : Int := if 2 < m then (m : Int) - 3 else (m : Int) + 9
  let doy : Int := (153 * mp + 2).fdiv 5 + (d : Int) - 1
  let doe : Int := yoe * 365 + yoe.fdiv 4 - yoe.fdiv 100 + doy
  era * 146097 + doe - 719468

/-- Is `c` a decimal digit? -/
def isDigitCh (c : Char) : Bool := c.isDigit

/-- Parse an ISO `YYYY-MM-DD` string to (year, month, day); JS validates the
calendar ranges of ISO date strings, yielding `NaN` for e.g. month 13. -/
def parseIsoDate (s : String) : Option (Int × Nat × Nat) :=
  match s.data with
  | [y1, y2, y3, y4, '-', m1, m2, '-', d1, d2] =>
    if isDigitCh y1 && isDigitCh y2 && isDigitCh y3 && isDigitCh y4 &&
       isDigitCh m1 && isDigitCh m2 && isDigitCh d1 && isDigitCh d2 then
      let y : Int := (natOfDigits [y1, y2, y3, y4] : Int)
      let m : Nat := natOfDigits [m1, m2]
      let d : Nat := natOfDigits [d1, d2]
      if 1 ≤ m && m ≤ 12 && 1 ≤ d && d ≤ daysInMonth y m then
        some (y, m, d)
      else none
    else none
  | _ => none

/-- Model of `new Date(s).getTime()`: milliseconds since the epoch for an ISO
date string, `none` for `NaN`. -/
def jsDateMs (s : String) : Option Int :=
  (parseIsoDate s).map (fun x => daysFromCivil x.1 x.2.1 x.2.2 * 86400000)

/-- Model of JS template interpolation of a number into a message string. -/
def qStr (q : ℚ) : String := toString q

/-- Model of JS `Math.round` (round half toward positive infinity). -/
def jsRound (q : ℚ) : Int := ⌊q + 1 / 2⌋

/-! ## Rule engine (`validateTimesheet`, validator.ts, period-based version) -/

/-- `validStatuses` from validator.ts. -/
def validStatuses : List String :=
  ["Approved", "Partially Submitted", "Needs Approval", "Not Submitted",
   "Absence/Holiday", "Partially Approved"]

/-- The tolerant status set of VALIDATION 2 (`isSubmitted`). -/
def tolerantStatuses : List String :=
  ["Approved", "Partially Approved", "Partially Submitted"]

/-- `calculatedTotal` of VALIDATION 1. -/
def calcTotal (e : TimesheetEntry) : ℚ :=
  e.regularHours + e.overtimeHours + e.holidayHours + e.leaveHours

/-- `hasHours` of VALIDATION 3. -/
def hasHours (e : TimesheetEntry) : Prop :=
  0 < e.reportedHours ∨ 0 < e.regularHours ∨ 0 < e.overtimeHours ∨
  0 < e.holidayHours ∨ 0 < e.leaveHours

instance (e : TimesheetEntry) : Decidable (hasHours e) := by
  unfold hasHours; infer_instance

/-- The `{field, value}` pairs of the negative-hours loop in validator.ts. -/
def hourFields (e : TimesheetEntry) : List (String × ℚ) :=
  [("reportedHours", e.reportedHours), ("regularHours", e.regularHours),
   ("overtimeHours", e.overtimeHours), ("holidayHours", e.holidayHours),
   ("leaveHours", e.leaveHours), ("totalHours", e.totalHours)]

/-- All `errors.push(...)` calls of validator.ts for one entry, in source
order; `row` is the 1-based row index. -/
def entryErrorsFor (row : Nat) (e : TimesheetEntry) : List ValidationError :=
  (if e.employeeId = "" then
    [⟨row, "employeeId", "Employee ID is required", .error⟩] else [])
  ++ (if e.startDate = "" then
    [⟨row, "startDate", "Start date is required", .error⟩] else [])
  ++ (if e.endDate = "" then
    [⟨row, "endDate", "End date is required", .error⟩] else [])
  ++ (if e.timesheetStatus = "" then
    [⟨row, "timesheetStatus", "Timesheet status is required", .error⟩] else [])
  ++ (if e.startDate ≠ "" ∧ e.endDate ≠ "" then
      (if (jsDateMs e.startDate).isNone then
        [⟨row, "startDate", "Invalid start date format", .error⟩] else [])
      ++ (if (jsDateMs e.endDate).isNone then
        [⟨row, "endDate", "Invalid end date format", .error⟩] else [])
      ++ (match jsDateMs e.startDate, jsDateMs e.endDate with
          | some s, some t =>
            if t ≤ s then
              [⟨row, "endDate", "End date must be after start date", .error⟩]
            else []
          | _, _ => [])
    else [])
  ++ (if e.scheduleHours < 0 then
    [⟨row, "scheduleHours", "Schedule hours cannot be negative", .error⟩] else [])
  ++ (hourFields e).flatMap (fun fv =>
      if fv.2 < 0 then
        [⟨row, fv.1, fv.1 ++ " cannot be negative", .error⟩] else [])
  ++ (if 0 < e.totalHours ∧ (1 : ℚ) / 100 < |e.totalHours - calcTotal e| then
    [⟨row, "totalHours",
      "Total hours (" ++ qStr e.totalHours ++ ") doesn't match calculated total ("
        ++ qStr (calcTotal e) ++ ")", .error⟩] else [])
  ++ (if e.scheduleHours < e.reportedHours ∧ e.timesheetStatus ∉ tolerantStatuses then
    [⟨row, "reportedHours",
      "Reported hours (" ++ qStr e.reportedHours ++ ") cannot exceed schedule hours ("
        ++ qStr e.scheduleHours ++ ")", .error⟩] else [])

/-- All `warnings.push(...)` calls of validator.ts for one entry, in source
order; `row` is the 1-based row index. -/
def entryWarningsFor (clock : Clock) (row : Nat) (e : TimesheetEntry) :
    List ValidationError :=
  (if e.timesheetStatus ≠ "" ∧ e.timesheetStatus ∉ validStatuses then
    [⟨row, "timesheetStatus",
      "Unknown status \"" ++ e.timesheetStatus ++ "\". Expected: "
        ++ String.intercalate ", " validStatuses, .warning⟩] else [])
  ++ (if e.startDate ≠ "" ∧ e.endDate ≠ "" then
      (match jsDateMs e.startDate, jsDateMs e.endDate with
       | some s, some t =>
         let daysDiff : ℚ := ((t - s : Int) : ℚ) / 86400000
         if 14 < daysDiff then
           [⟨row, "endDate",
             "Long period (" ++ toString (jsRound daysDiff)
               ++ " days). Typical periods are 7-14 days", .warning⟩]
         else []
       | _, _ => [])
    else [])
  ++ (if 80 < e.scheduleHours then
    [⟨row, "scheduleHours",
      "Schedule hours over 80 seems unusually high for a period", .warning⟩] else [])
  ++ (if e.scheduleHours < e.reportedHours ∧ e.timesheetStatus ∈ tolerantStatuses then
    [⟨row, "reportedHours",
      "Reported hours (" ++ qStr e.reportedHours ++ ") exceed schedule hours ("
        ++ qStr e.scheduleHours ++ ")", .warning⟩] else [])
  ++ (if (e.timesheetStatus = "Approved" ∨ e.timesheetStatus = "Partially Approved")
        ∧ ¬ hasHours e then
    [⟨row, "timesheetStatus",
      "Approved timesheet should have hours recorded", .warning⟩] else [])
  ++ (if e.timesheetStatus = "Not Submitted" ∧ hasHours e then
    [⟨row, "timesheetStatus",
      "Not submitted timesheet has hours recorded - status may be incorrect",
      .warning⟩] else [])
  ++ (if e.timesheetStatus = "Absence/Holiday"
        ∧ (0 < e.regularHours ∨ 0 < e.overtimeHours) then
    [⟨row, "timesheetStatus",
      "Absence/Holiday status should not have regular or overtime hours",
      .warning⟩] else [])
  ++ (if (e.timesheetStatus = "Needs Approval" ∨ e.timesheetStatus = "Partially Submitted")
        ∧ ¬ hasHours e then
    [⟨row, "timesheetStatus",
      "Submitted timesheet should have hours recorded", .warning⟩] else [])
  ++ (if e.startDate ≠ "" ∧ e.endDate ≠ "" then
      (match jsDateMs e.startDate, jsDateMs e.endDate with
       | some s, some t =>
         (if clock.nowMs < s then
           [⟨row, "startDate", "Start date is in the future", .warning⟩] else [])
         ++ (if t < clock.yearAgoMs then
           [⟨row, "endDate", "End date is more than 1 year ago", .warning⟩] else [])
       | _, _ => [])
    else [])
  ++ (if 0 < e.reportedHours ∧ calcTotal e = 0 then
    [⟨row, "reportedHours",
      "Reported hours exist but no breakdown provided (regular, overtime, holiday, leave)",
      .warning⟩] else [])
  ++ (if e.reportedHours = 0 ∧ 0 < calcTotal e then
    [⟨row, "reportedHours",
      "Hour breakdown provided but reported hours is zero", .warning⟩] else [])

/-- The error accumulator of `entries.forEach((entry, index) => ...)`:
errors of the entries starting at 0-based index `i`. -/
def errorsFrom (i : Nat) : List TimesheetEntry → List ValidationError
  | [] => []
  | e :: es => entryErrorsFor (i + 1) e ++ errorsFrom (i + 1) es

/-- The warning accumulator of `entries.forEach((entry, index) => ...)`. -/
def warningsFrom (clock : Clock) (i : Nat) : List TimesheetEntry → List ValidationError
  | [] => []
  | e :: es => entryWarningsFor clock (i + 1) e ++ warningsFrom clock (i + 1) es

/-- `validateTimesheet` (validator.ts, period-based version): accumulate all
findings and set `isValid` to `errors.length === 0`. -/
def validateTimesheet (clock : Clock) (entries : List TimesheetEntry) :
    ValidationResult :=
  let errs := errorsFrom 0 entries
  { isValid := errs.length == 0
    errors := errs
    warnings := warningsFrom clock 0 entries }

/-! ## Normalizer/Parser (`parseCSV`, csvParser.ts, period-based version) -/

/-- The header synonym table of `transformHeader` (csvParser.ts). -/
def headerMap : List (String × String) :=
  [("empl id", "employeeId"), ("employee id", "employeeId"),
   ("employee_id", "employeeId"), ("id", "employeeId"),
   ("start date", "startDate"), ("start_date", "startDate"),
   ("startdate", "startDate"),
   ("end date", "endDate"), ("end_date", "endDate"), ("enddate", "endDate"),
   ("timesheet status", "timesheetStatus"), ("timesheet_status", "timesheetStatus"),
   ("status", "timesheetStatus"),
   ("schedule hours", "scheduleHours"), ("schedule_hours", "scheduleHours"),
   ("scheduled hours", "scheduleHours"), ("scheduled_hours", "scheduleHours"),
   ("reported hours", "reportedHours"), ("reported_hours", "reportedHours"),
   ("regular hours", "regularHours"), ("regular_hours", "regularHours"),
   ("overtime hours", "overtimeHours"), ("overtime_hours", "overtimeHours"),
   ("holiday hours", "holidayHours"), ("holiday_hours", "holidayHours"),
   ("leave hours", "leaveHours"), ("leave_hours", "leaveHours"),
   ("total hours", "totalHours"), ("total_hours", "totalHours")]

/-- `transformHeader` (csvParser.ts): `headerMap[header.toLowerCase().trim()] || header`. -/
def transformHeader (h : String) : String :=
  (headerMap.lookup (jsTrim (jsToLower h))).getD h

/-- The numeric hour-bucket field list of the `transform` callback. -/
def numericHourFields : List String :=
  ["scheduleHours", "reportedHours", "regularHours", "overtimeHours",
   "holidayHours", "leaveHours", "totalHours"]

/-- The `transform` callback (csvParser.ts): numeric hour buckets become
`'0'` when blank or unparsable, otherwise the trimmed value; every other
field is trimmed. -/
def transformValue (field : String) (v : String) : String :=
  if numericHourFields.contains field then
    if v = "" ∨ jsTrim v = "" then "0"
    else if (parseNumber v).isNone then "0"
    else jsTrim v
  else jsTrim v

/-! ### The underlying delimited-text reader (PapaParse model)

PapaParse is modelled by a character-level state machine: fields are
separated by `,`, records by `\n`; a field whose first character is `"`
is quoted, with `""` as the escaped quote; a stray character after a
closing quote or an unterminated quote is a reader error. The reader
collects errors rather than throwing, exactly as `result.errors`. -/

/-- Tokenizer mode: inside an unquoted field, inside a quoted field, or
just after a quote character inside a quoted field. -/
inductive CsvMode where
  | normal
  | quoted
  | afterQuote
deriving DecidableEq, Repr

/-- Tokenizer state: current field (reversed is avoided; appended in order),
current record's completed fields, completed records, mode, errors. -/
structure CsvSt where
  field : List Char
  row : List (List Char)
  rows : List (List (List Char))
  mode : CsvMode
  errs : List String
deriving DecidableEq, Repr

/-- Initial tokenizer state. -/
def csvSt0 : CsvSt := ⟨[], [], [], .normal, []⟩

/-- One step of the delimited-text reader. -/
def csvStep (st : CsvSt) (c : Char) : CsvSt :=
  match st.mode with
  | .normal =>
    if c = '"' then
      if st.field = [] then { st with mode := .quoted }
      else { st with field := st.field ++ [c] }
    else if c = ',' then { st with field := [], row := st.row ++ [st.field] }
    else if c = '\n' then
      { st with field := [], row := [], rows := st.rows ++ [st.row ++ [st.field]] }
    else { st with field := st.field ++ [c] }
  | .quoted =>
    if c = '"' then { st with mode := .afterQuote }
    else { st with field := st.field ++ [c] }
  | .afterQuote =>
    if c = '"' then { st with mode := .quoted, field := st.field ++ [c] }
    else if c = ',' then
      { st with mode := .normal, field := [], row := st.row ++ [st.field] }
    else if c = '\n' then
      { st with mode := .normal, field := [], row := [],
                rows := st.rows ++ [st.row ++ [st.field]] }
    else { st with mode := .normal, field := st.field ++ [c],
                   errs := st.errs ++ ["InvalidQuotes"] }

/-- Flush the final record and report an unterminated quote. -/
def csvFinish (st : CsvSt) : List (List String) × List String :=
  let rows := st.rows ++ [st.row ++ [st.field]]
  (rows.map (fun r => r.map (fun f => (⟨f⟩ : String))),
   if st.mode = .quoted then st.errs ++ ["MissingQuotes"] else st.errs)

/-- The delimited-text reader: raw records plus reader errors. -/
def csvTokenize (text : String) : List (List String) × List String :=
  csvFinish (text.data.foldl csvStep csvSt0)

/-- The PapaParse stage of `parseCSV`: tokenize, drop empty lines
(`skipEmptyLines: true`), treat the first record as the header row
(`header: true`, via `transformHeader`), pair each data cell with its
field and apply `transform`; a data record whose width differs from the
header's is a `FieldMismatch` reader error. Returns the transformed row
objects and the reader's error list (`result.data` / `result.errors`). -/
def papaParse (text : String) : List (List (String × String)) × List String :=
  let tk := csvTokenize text
  let rows := tk.1.filter (fun r => r ≠ [""])
  match rows with
  | [] => ([], tk.2)
  | hdr :: dataRows =>
    let headers := hdr.map transformHeader
    let mism := (dataRows.filter (fun r => r.length ≠ headers.length)).map
      (fun _ => "FieldMismatch")
    (dataRows.map (fun r =>
        (headers.zip r).map (fun fv => (fv.1, transformValue fv.1 fv.2))),
     tk.2 ++ mism)

/-- The post-processing step of `parseCSV`'s `complete` callback: read each
canonical field out of the row object (an absent field — `undefined` in the
source — is modelled as the empty string) and convert the numeric hour
buckets with `parseFloat(...) || 0`. -/
def buildEntry (cells : List (String × String)) : TimesheetEntry :=
  let g := fun f => ((cells.lookup f).getD "")
  { employeeId := g "employeeId"
    startDate := g "startDate"
    endDate := g "endDate"
    timesheetStatus := g "timesheetStatus"
    scheduleHours := toNumber (g "scheduleHours")
    reportedHours := toNumber (g "reportedHours")
    regularHours := toNumber (g "regularHours")
    overtimeHours := toNumber (g "overtimeHours")
    holidayHours := toNumber (g "holidayHours")
    leaveHours := toNumber (g "leaveHours")
    totalHours := toNumber (g "totalHours") }

/-- `parseCSV` (csvParser.ts) on the text of the uploaded file: if the reader
reported any error, reject with a single fatal message built from the first
one; otherwise deliver every record, in input order. -/
def parseCSV (text : String) : Except String (List TimesheetEntry) :=
  match (papaParse text).2 with
  | m :: _ => .error ("CSV parsing error: " ++ m)
  | [] => .ok ((papaParse text).1.map buildEntry)

/-! ## Export serializer (`exportToCSV`, TimesheetTable.tsx)

The serializer maps each entry to a comma-joined line (status double
quoted), prepends the fixed header line and joins with newlines. JS
number-to-string conversion of the hour fields is abstracted by the
formatter `fmt`, per the spec's "modulo numeric string formatting". -/

/-- The fixed header line of `exportToCSV`. -/
def exportHeaderLine : String :=
  "Employee ID,Start Date,End Date,Timesheet Status,Schedule Hours,"
    ++ "Reported Hours,Regular Hours,Overtime Hours,Holiday Hours,Leave Hours,Total Hours"

/-- One exported data line: the 11 fields of an entry joined by `,`,
with `timesheetStatus` double-quoted. -/
def rowLine (fmt : ℚ → String) (e : TimesheetEntry) : String :=
  e.employeeId ++ "," ++ e.startDate ++ "," ++ e.endDate ++ ",\""
    ++ e.timesheetStatus ++ "\"," ++ fmt e.scheduleHours ++ ","
    ++ fmt e.reportedHours ++ "," ++ fmt e.regularHours ++ ","
    ++ fmt e.overtimeHours ++ "," ++ fmt e.holidayHours ++ ","
    ++ fmt e.leaveHours ++ "," ++ fmt e.totalHours

/-- `exportToCSV` (TimesheetTable.tsx): `[headers.join(','), ...rows].join('\n')`. -/
def exportToCSV (fmt : ℚ → String) (entries : List TimesheetEntry) : String :=
  exportHeaderLine ++ (entries.map (fun e => "\n" ++ rowLine fmt e)).foldr (· ++ ·) ""

/-- A concrete numeric formatter agreeing with JS number printing on
integral values (every witness below uses only integral hours). -/
def intNumFmt (q : ℚ) : String := toString q.num

/-- All findings in `l` carry row `row` and severity `sev`. -/
def AllRS (row : Nat) (sev : Severity) (l : List ValidationError) : Prop :=
  ∀ f ∈ l, f.row = row ∧ f.severity = sev

/-- Does character list `p` occur at the start of `s`? -/
def startsAux : List Char → List Char → Bool
  | [], _ => true
  | _ :: _, [] => false
  | a :: as, b :: bs => a == b && startsAux as bs

/-- Does string `p` occur at the start of `s`? (message discriminator). -/
def msgStarts (p s : String) : Bool := startsAux p.data s.data

/-- The total-hours mismatch finding of VALIDATION 1 (discriminated by its
field and fixed message head). -/
def isTotalMismatchMsg (f : ValidationError) : Bool :=
  f.field == "totalHours" && msgStarts "Total hours (" f.message

/-- The reported-exceeds-schedule finding of VALIDATION 2 (discriminated by
its field and fixed message head, shared by the warning and error variants). -/
def isExceedMsg (f : ValidationError) : Bool :=
  f.field == "reportedHours" && msgStarts "Reported hours (" f.message

/-- The long-period finding (discriminated by its field and fixed message head). -/
def isLongPeriodMsg (f : ValidationError) : Bool :=
  f.field == "endDate" && msgStarts "Long period (" f.message

/-- A fixed evaluation clock (mid-September 2024). -/
def clock0 : Clock := ⟨1726000000000, 1694390400000⟩

/-- Scenario-A-style fixture: a fully consistent record. -/
def entryA : TimesheetEntry :=
  { employeeId := "E1", startDate := "2024-01-01", endDate := "2024-01-08",
    timesheetStatus := "Approved", scheduleHours := 40, reportedHours := 40,
    regularHours := 40, overtimeHours := 0, holidayHours := 0, leaveHours := 0,
    totalHours := 40 }

/-- Reported exceeds schedule with an all-zero breakdown. -/
def entryExceedNoBreakdown : TimesheetEntry :=
  { entryA with reportedHours := 50, regularHours := 0, totalHours := 0 }

/-- Scenario D fixture: reported 50 over schedule 40, tolerant status. -/
def entryD : TimesheetEntry :=
  { entryA with reportedHours := 50, regularHours := 50, totalHours := 50 }

/-- Total hours 0.02 over the breakdown sum. -/
def entryTotalOff : TimesheetEntry :=
  { entryA with totalHours := 2001 / 50 }

/-- A 15-day period (2024-01-01 to 2024-01-16). -/
def entry15Day : TimesheetEntry := { entryA with endDate := "2024-01-16" }

/-- A 14-day period (2024-01-01 to 2024-01-15). -/
def entry14Day : TimesheetEntry := { entryA with endDate := "2024-01-15" }

/-- Absence/Holiday with a negative (hence nonzero) regular-hours value. -/
def entryAbsNeg : TimesheetEntry :=
  { entryA with
    timesheetStatus := "Absence/Holiday", reportedHours := 0,
    regularHours := -1, totalHours := -1 }

/-- Absence/Holiday with positive regular hours. -/
def entryAbsPos : TimesheetEntry :=
  { entryA with timesheetStatus := "Absence/Holiday" }

/-- Missing employee id and an unusually high schedule on one record. -/
def entryBoth : TimesheetEntry := { entryA with employeeId := "", scheduleHours := 90 }

/-! ### Round-trip analysis of `exportToCSV` followed by `parseCSV` -/

/-- The eleven cell strings of one exported record, in column order. -/
def rowStrings (fmt : ℚ → String) (e : TimesheetEntry) : List String :=
  [e.employeeId, e.startDate, e.endDate, e.timesheetStatus,
   fmt e.scheduleHours, fmt e.reportedHours, fmt e.regularHours,
   fmt e.overtimeHours, fmt e.holidayHours, fmt e.leaveHours, fmt e.totalHours]

/-- No delimiter, quote or newline characters. -/
def safeChars (s : String) : Prop :=
  ∀ c ∈ s.data, c ≠ ',' ∧ c ≠ '"' ∧ c ≠ '\n'

/-- A string safe for an unquoted CSV cell that `transform` will not alter:
no delimiter, quote or newline characters, and trim-invariant. -/
def csvSafe (s : String) : Prop :=
  safeChars s ∧ jsTrim s = s

/-- The numeric formatter prints `q` as text that `parseFloat` reads back as
exactly `q`, using no delimiter, quote or newline characters. -/
def numFmtOk (fmt : ℚ → String) (q : ℚ) : Prop :=
  parseNumber (fmt q) = some q ∧ safeChars (fmt q)

/-- The per-entry character-safety bundle used by the round-trip proof. -/
def entrySafe (fmt : ℚ → String) (e : TimesheetEntry) : Prop :=
  safeChars e.employeeId ∧ safeChars e.startDate ∧ safeChars e.endDate ∧
  safeChars e.timesheetStatus ∧ safeChars (fmt e.scheduleHours) ∧
  safeChars (fmt e.reportedHours) ∧ safeChars (fmt e.regularHours) ∧
  safeChars (fmt e.overtimeHours) ∧ safeChars (fmt e.holidayHours) ∧
  safeChars (fmt e.leaveHours) ∧ safeChars (fmt e.totalHours)

/-- The canonical header names produced by re-parsing the export header. -/
def exportHeaderCells : List String :=
  ["Employee ID", "Start Date", "End Date", "Timesheet Status", "Schedule Hours",
   "Reported Hours", "Regular Hours", "Overtime Hours", "Holiday Hours",
   "Leave Hours", "Total Hours"]

/-- The canonical field names the export headers map to. -/
def canonFields : List String :=
  ["employeeId", "startDate", "endDate", "timesheetStatus", "scheduleHours",
   "reportedHours", "regularHours", "overtimeHours", "holidayHours",
   "leaveHours", "totalHours"]

/-- Per-record safety hypotheses of the round-trip: string fields are
delimiter-free and trim-invariant. -/
def stringFieldsSafe (e : TimesheetEntry) : Prop :=
  csvSafe e.employeeId ∧ csvSafe e.startDate ∧ csvSafe e.endDate ∧
  csvSafe e.timesheetStatus

/-- Per-record numeric-formatter hypotheses of the round-trip. -/
def hourFieldsSafe (fmt : ℚ → String) (e : TimesheetEntry) : Prop :=
  numFmtOk fmt e.scheduleHours ∧ numFmtOk fmt e.reportedHours ∧
  numFmtOk fmt e.regularHours ∧ numFmtOk fmt e.overtimeHours ∧
  numFmtOk fmt e.holidayHours ∧ numFmtOk fmt e.leaveHours ∧
  numFmtOk fmt e.totalHours

instance (e : TimesheetEntry) : Decidable (stringFieldsSafe e) := by
  unfold stringFieldsSafe csvSafe safeChars
  infer_instance

instance (fmt : ℚ → String) (e : TimesheetEntry) : Decidable (hourFieldsSafe fmt e) := by
  unfold hourFieldsSafe numFmtOk safeChars
  infer_instance

/-- An entry whose employee id has a leading space (and so is not
trim-invariant); its hour values are all integral. -/
def entryBadId : TimesheetEntry := { entryA with employeeId := " a" }

/-! ## Theorems -/

theorem AllRS_nil {r s} : AllRS r s [] := by intro f hf; cases hf

theorem AllRS_singleton {r s fl m} : AllRS r s [⟨r, fl, m, s⟩] := by
  intro f hf; rcases List.mem_singleton.mp hf with rfl; exact ⟨rfl, rfl⟩

theorem AllRS_append {r s l1 l2} (h1 : AllRS r s l1) (h2 : AllRS r s l2) :
    AllRS r s (l1 ++ l2) := by
  intro f hf
  rcases List.mem_append.mp hf with h | h
  · exact h1 f h
  · exact h2 f h

theorem AllRS_ite {r s l1 l2} (c : Prop) [Decidable c]
    (h1 : AllRS r s l1) (h2 : AllRS r s l2) : AllRS r s (if c then l1 else l2) := by
  split <;> assumption

theorem allRS_entryErrorsFor (row : Nat) (e : TimesheetEntry) :
    AllRS row .error (entryErrorsFor row e) := by
  unfold entryErrorsFor
  simp only [hourFields, List.flatMap_cons, List.flatMap_nil, List.append_nil]
  repeat1'
    first
      | exact AllRS_nil
      | exact AllRS_singleton
      | apply AllRS_append
      | apply AllRS_ite
  rcases jsDateMs e.startDate with _ | s <;> rcases jsDateMs e.endDate with _ | t <;>
    simp only [] <;>
    repeat1'
      first
        | exact AllRS_nil
        | exact AllRS_singleton
        | apply AllRS_append
        | apply AllRS_ite

theorem allRS_entryWarningsFor (clock : Clock) (row : Nat) (e : TimesheetEntry) :
    AllRS row .warning (entryWarningsFor clock row e) := by
  unfold entryWarningsFor
  repeat1'
    first
      | exact AllRS_nil
      | exact AllRS_singleton
      | apply AllRS_append
      | apply AllRS_ite
  all_goals
    rcases jsDateMs e.startDate with _ | s <;> rcases jsDateMs e.endDate with _ | t <;>
      simp only [] <;>
      repeat1'
        first
          | exact AllRS_nil
          | exact AllRS_singleton
          | apply AllRS_append
          | apply AllRS_ite

theorem row_gt_errorsFrom :
    ∀ (es : List TimesheetEntry) (j : Nat) (f : ValidationError),
      f ∈ errorsFrom j es → j < f.row := by
  intro es
  induction es with
  | nil => intro j f hf; cases hf
  | cons e es ih =>
    intro j f hf
    rcases List.mem_append.mp hf with h | h
    · rw [(allRS_entryErrorsFor _ _ f h).1]; omega
    · have := ih (j + 1) f h; omega

theorem row_gt_warningsFrom :
    ∀ (es : List TimesheetEntry) (clock : Clock) (j : Nat) (f : ValidationError),
      f ∈ warningsFrom clock j es → j < f.row := by
  intro es clock
  induction es with
  | nil => intro j f hf; cases hf
  | cons e es ih =>
    intro j f hf
    rcases List.mem_append.mp hf with h | h
    · rw [(allRS_entryWarningsFor _ _ _ f h).1]; omega
    · have := ih (j + 1) f h; omega

theorem filter_row_errorsFrom :
    ∀ (es : List TimesheetEntry) (j i : Nat) (hj : j ≤ i) (hi : i - j < es.length),
      (errorsFrom j es).filter (fun f => f.row == i + 1) =
        entryErrorsFor (i + 1) (es.get ⟨i - j, hi⟩) := by
  intro es
  induction es with
  | nil => intro j i hj hi; simp at hi
  | cons e es ih =>
    intro j i hj hi
    simp only [errorsFrom, List.filter_append]
    by_cases hji : j = i
    · subst hji
      have h1 : (entryErrorsFor (j + 1) e).filter (fun f => f.row == j + 1) =
          entryErrorsFor (j + 1) e := by
        rw [List.filter_eq_self]
        intro f hf
        simp [(allRS_entryErrorsFor _ _ f hf).1]
      have h2 : (errorsFrom (j + 1) es).filter (fun f => f.row == j + 1) = [] := by
        rw [List.filter_eq_nil_iff]
        intro f hf
        have := row_gt_errorsFrom es (j + 1) f hf
        simp only [beq_iff_eq]
        omega
      rw [h1, h2, List.append_nil]
      simp [Nat.sub_self]
    · have h1 : (entryErrorsFor (j + 1) e).filter (fun f => f.row == i + 1) = [] := by
        rw [List.filter_eq_nil_iff]
        intro f hf
        rw [(allRS_entryErrorsFor _ _ f hf).1]
        simp only [beq_iff_eq]
        omega
      have hlt : j < i := Nat.lt_of_le_of_ne hj hji
      have hi2 : i - (j + 1) < es.length := by
        simp only [List.length_cons] at hi
        omega
      have hstep : i - j = (i - (j + 1)) + 1 := by omega
      rw [h1, List.nil_append, ih (j + 1) i (by omega) hi2]
      congr 1
      rw [List.get_of_eq rfl]
      have : (⟨i - j, hi⟩ : Fin (e :: es).length) = ⟨(i - (j + 1)) + 1, by omega⟩ := by
        simp [hstep]
      rw [this]
      rfl

theorem filter_row_warningsFrom :
    ∀ (es : List TimesheetEntry) (clock : Clock) (j i : Nat) (hj : j ≤ i)
      (hi : i - j < es.length),
      (warningsFrom clock j es).filter (fun f => f.row == i + 1) =
        entryWarningsFor clock (i + 1) (es.get ⟨i - j, hi⟩) := by
  intro es clock
  induction es with
  | nil => intro j i _ hi; simp at hi
  | cons e es ih =>
    intro j i hj hi
    simp only [warningsFrom, List.filter_append]
    by_cases hji : j = i
    · subst hji
      have h1 : (entryWarningsFor clock (j + 1) e).filter (fun f => f.row == j + 1) =
          entryWarningsFor clock (j + 1) e := by
        rw [List.filter_eq_self]
        intro f hf
        simp [(allRS_entryWarningsFor _ _ _ f hf).1]
      have h2 : (warningsFrom clock (j + 1) es).filter (fun f => f.row == j + 1) = [] := by
        rw [List.filter_eq_nil_iff]
        intro f hf
        have := row_gt_warningsFrom es clock (j + 1) f hf
        simp only [beq_iff_eq]
        omega
      rw [h1, h2, List.append_nil]
      simp [Nat.sub_self]
    · have h1 : (entryWarningsFor clock (j + 1) e).filter (fun f => f.row == i + 1) = [] := by
        rw [List.filter_eq_nil_iff]
        intro f hf
        rw [(allRS_entryWarningsFor _ _ _ f hf).1]
        simp only [beq_iff_eq]
        omega
      have hlt : j < i := Nat.lt_of_le_of_ne hj hji
      have hi2 : i - (j + 1) < es.length := by
        simp only [List.length_cons] at hi
        omega
      have hstep : i - j = (i - (j + 1)) + 1 := by omega
      rw [h1, List.nil_append, ih (j + 1) i (by omega) hi2]
      congr 1
      have : (⟨i - j, hi⟩ : Fin (e :: es).length) = ⟨(i - (j + 1)) + 1, by omega⟩ := by
        simp [hstep]
      rw [this]
      rfl

theorem sev_errorsFrom :
    ∀ (es : List TimesheetEntry) (j : Nat) (f : ValidationError),
      f ∈ errorsFrom j es → f.severity = .error := by
  intro es
  induction es with
  | nil => intro j f hf; cases hf
  | cons e es ih =>
    intro j f hf
    rcases List.mem_append.mp hf with h | h
    · exact (allRS_entryErrorsFor _ _ f h).2
    · exact ih (j + 1) f h

theorem sev_warningsFrom :
    ∀ (es : List TimesheetEntry) (clock : Clock) (j : Nat) (f : ValidationError),
      f ∈ warningsFrom clock j es → f.severity = .warning := by
  intro es clock
  induction es with
  | nil => intro j f hf; cases hf
  | cons e es ih =>
    intro j f hf
    rcases List.mem_append.mp hf with h | h
    · exact (allRS_entryWarningsFor _ _ _ f h).2
    · exact ih (j + 1) f h

/-- C1. For every record sequence, `isValid` is true iff zero error-severity
findings exist across all findings of the batch; warning-severity findings
never affect it. -/
theorem validate_isValid_iff_no_error_findings (clock : Clock) (es : List TimesheetEntry) :
    (validateTimesheet clock es).isValid = true ↔
      ((validateTimesheet clock es).errors ++ (validateTimesheet clock es).warnings).filter
        (fun f => f.severity == Severity.error) = [] := by
  have herr : (validateTimesheet clock es).errors = errorsFrom 0 es := rfl
  have hwar : (validateTimesheet clock es).warnings = warningsFrom clock 0 es := rfl
  have hval : (validateTimesheet clock es).isValid = ((errorsFrom 0 es).length == 0) := rfl
  rw [herr, hwar, hval, List.filter_append]
  have h1 : (errorsFrom 0 es).filter (fun f => f.severity == Severity.error) =
      errorsFrom 0 es := by
    rw [List.filter_eq_self]
    intro f hf
    simp [sev_errorsFrom es 0 f hf]
    rfl
  have h2 : (warningsFrom clock 0 es).filter (fun f => f.severity == Severity.error) = [] := by
    rw [List.filter_eq_nil_iff]
    intro f hf
    simp [sev_warningsFrom es clock 0 f hf]
    rfl
  rw [h1, h2, List.append_nil]
  simp [List.length_eq_zero]

theorem startsAux_self_append : ∀ (l r : List Char), startsAux l (l ++ r) = true := by
  intro l
  induction l with
  | nil => intro r; rfl
  | cons a as ih => intro r; simp [startsAux, ih]

theorem msgStarts_self_append (p t : String) : msgStarts p (p ++ t) = true := by
  have : (p ++ t).data = p.data ++ t.data := by
    cases p; cases t; rfl
  simp [msgStarts, this, startsAux_self_append]

example (row : Nat) (e : TimesheetEntry) :
    List.filter isTotalMismatchMsg
      (if e.employeeId = "" then [⟨row, "employeeId", "Employee ID is required", .error⟩] else []) = [] := by
  split
  · rfl
  · rfl

example (row : Nat) (e : TimesheetEntry) :
    List.filter isTotalMismatchMsg
      [(⟨row, "totalHours",
        "Total hours (" ++ qStr e.totalHours ++ ") doesn't match calculated total ("
          ++ qStr (calcTotal e) ++ ")", .error⟩ : ValidationError)] =
      [⟨row, "totalHours",
        "Total hours (" ++ qStr e.totalHours ++ ") doesn't match calculated total ("
          ++ qStr (calcTotal e) ++ ")", .error⟩] := by
  have h : ("Total hours (" ++ qStr e.totalHours ++ ") doesn't match calculated total ("
      ++ qStr (calcTotal e) ++ ")") = "Total hours (" ++ (qStr e.totalHours
      ++ ") doesn't match calculated total (" ++ qStr (calcTotal e) ++ ")") := by
    simp [String.append_assoc]
  simp [List.filter, isTotalMismatchMsg, h, msgStarts_self_append]

theorem filter_mismatch_entryErrors (row : Nat) (e : TimesheetEntry) :
    (entryErrorsFor row e).filter isTotalMismatchMsg =
      if 0 < e.totalHours ∧ (1 : ℚ) / 100 < |e.totalHours - calcTotal e| then
        [⟨row, "totalHours",
          "Total hours (" ++ qStr e.totalHours ++ ") doesn't match calculated total ("
            ++ qStr (calcTotal e) ++ ")", .error⟩]
      else [] := by
  unfold entryErrorsFor
  rcases jsDateMs e.startDate with _ | s <;> rcases jsDateMs e.endDate with _ | t <;>
    simp only [hourFields, List.flatMap_cons, List.flatMap_nil, List.append_nil,
      List.filter_append, apply_ite (List.filter isTotalMismatchMsg)] <;>
    simp [List.filter, isTotalMismatchMsg, msgStarts_self_append, String.append_assoc] <;>
    (intros; rfl)

theorem filter_mismatch_entryWarnings (clock : Clock) (row : Nat) (e : TimesheetEntry) :
    (entryWarningsFor clock row e).filter isTotalMismatchMsg = [] := by
  unfold entryWarningsFor
  rcases jsDateMs e.startDate with _ | s <;> rcases jsDateMs e.endDate with _ | t <;>
    simp only [List.filter_append, apply_ite (List.filter isTotalMismatchMsg)] <;>
    simp [List.filter, isTotalMismatchMsg]

theorem filter_exceed_entryErrors (row : Nat) (e : TimesheetEntry) :
    (entryErrorsFor row e).filter isExceedMsg =
      if e.scheduleHours < e.reportedHours ∧ e.timesheetStatus ∉ tolerantStatuses then
        [⟨row, "reportedHours",
          "Reported hours (" ++ qStr e.reportedHours ++ ") cannot exceed schedule hours ("
            ++ qStr e.scheduleHours ++ ")", .error⟩]
      else [] := by
  unfold entryErrorsFor
  rcases jsDateMs e.startDate with _ | s <;> rcases jsDateMs e.endDate with _ | t <;>
    simp only [hourFields, List.flatMap_cons, List.flatMap_nil, List.append_nil,
      List.filter_append, apply_ite (List.filter isExceedMsg)] <;>
    simp [List.filter, isExceedMsg, msgStarts_self_append, String.append_assoc] <;>
    (intros; rfl)

theorem filter_exceed_entryWarnings (clock : Clock) (row : Nat) (e : TimesheetEntry) :
    (entryWarningsFor clock row e).filter isExceedMsg =
      if e.scheduleHours < e.reportedHours ∧ e.timesheetStatus ∈ tolerantStatuses then
        [⟨row, "reportedHours",
          "Reported hours (" ++ qStr e.reportedHours ++ ") exceed schedule hours ("
            ++ qStr e.scheduleHours ++ ")", .warning⟩]
      else [] := by
  unfold entryWarningsFor
  rcases jsDateMs e.startDate with _ | s <;> rcases jsDateMs e.endDate with _ | t <;>
    simp only [List.filter_append, apply_ite (List.filter isExceedMsg)] <;>
    simp [List.filter, isExceedMsg, msgStarts_self_append, String.append_assoc] <;>
    (repeat' apply And.intro) <;> (intros; rfl)

theorem filter_longPeriod_entryErrors (row : Nat) (e : TimesheetEntry) :
    (entryErrorsFor row e).filter isLongPeriodMsg = [] := by
  unfold entryErrorsFor
  rcases jsDateMs e.startDate with _ | s <;> rcases jsDateMs e.endDate with _ | t <;>
    simp only [hourFields, List.flatMap_cons, List.flatMap_nil, List.append_nil,
      List.filter_append, apply_ite (List.filter isLongPeriodMsg)] <;>
    simp [List.filter, isLongPeriodMsg] <;>
    (repeat' apply And.intro) <;> (intros; rfl)

theorem filter_longPeriod_entryWarnings (clock : Clock) (row : Nat) (e : TimesheetEntry)
    (s t : Int) (hsd : e.startDate ≠ "") (hed : e.endDate ≠ "")
    (hs : jsDateMs e.startDate = some s) (ht : jsDateMs e.endDate = some t) :
    (entryWarningsFor clock row e).filter isLongPeriodMsg =
      if 14 < ((t - s : Int) : ℚ) / 86400000 then
        [⟨row, "endDate",
          "Long period (" ++ toString (jsRound (((t - s : Int) : ℚ) / 86400000))
            ++ " days). Typical periods are 7-14 days", .warning⟩]
      else [] := by
  unfold entryWarningsFor
  rw [hs, ht]
  simp only [List.filter_append, apply_ite (List.filter isLongPeriodMsg)]
  simp [List.filter, isLongPeriodMsg, msgStarts_self_append, String.append_assoc, hsd, hed] <;>
    (repeat' apply And.intro) <;> (intros; rfl)

theorem filter_statusField_absence_entryWarnings (clock : Clock) (row : Nat)
    (e : TimesheetEntry) (hst : e.timesheetStatus = "Absence/Holiday") :
    (entryWarningsFor clock row e).filter (fun f => f.field == "timesheetStatus") =
      if 0 < e.regularHours ∨ 0 < e.overtimeHours then
        [⟨row, "timesheetStatus",
          "Absence/Holiday status should not have regular or overtime hours", .warning⟩]
      else [] := by
  unfold entryWarningsFor
  rw [hst]
  rcases jsDateMs e.startDate with _ | s <;> rcases jsDateMs e.endDate with _ | t <;>
    simp only [List.filter_append,
      apply_ite (List.filter (fun (f : ValidationError) => f.field == "timesheetStatus"))] <;>
    simp [List.filter, validStatuses] <;>
    (repeat' apply And.intro) <;> (intros; rfl)

/-- C2 (amended). If reported hours exceed schedule hours, validate emits
exactly one exceed-schedule finding (field `reportedHours`, message beginning
"Reported hours (") for that row: a warning when the status is in the
tolerant set, otherwise an error; none when reported does not exceed
schedule. -/
theorem reported_exceed_rule (clock : Clock) (es : List TimesheetEntry) (i : Nat)
    (hi : i < es.length) :
    (validateTimesheet clock es).errors.filter
        (fun f => isExceedMsg f && f.row == i + 1) =
      (if (es.get ⟨i, hi⟩).scheduleHours < (es.get ⟨i, hi⟩).reportedHours ∧
          (es.get ⟨i, hi⟩).timesheetStatus ∉ tolerantStatuses then
        [⟨i + 1, "reportedHours",
          "Reported hours (" ++ qStr (es.get ⟨i, hi⟩).reportedHours
            ++ ") cannot exceed schedule hours ("
            ++ qStr (es.get ⟨i, hi⟩).scheduleHours ++ ")", .error⟩]
      else [])
    ∧ (validateTimesheet clock es).warnings.filter
        (fun f => isExceedMsg f && f.row == i + 1) =
      (if (es.get ⟨i, hi⟩).scheduleHours < (es.get ⟨i, hi⟩).reportedHours ∧
          (es.get ⟨i, hi⟩).timesheetStatus ∈ tolerantStatuses then
        [⟨i + 1, "reportedHours",
          "Reported hours (" ++ qStr (es.get ⟨i, hi⟩).reportedHours
            ++ ") exceed schedule hours ("
            ++ qStr (es.get ⟨i, hi⟩).scheduleHours ++ ")", .warning⟩]
      else []) := by
  have he : (validateTimesheet clock es).errors = errorsFrom 0 es := rfl
  have hw : (validateTimesheet clock es).warnings = warningsFrom clock 0 es := rfl
  have hi0 : i - 0 < es.length := by simpa using hi
  constructor
  · rw [he, ← List.filter_filter, filter_row_errorsFrom es 0 i (Nat.zero_le i) hi0,
      filter_exceed_entryErrors]
    simp only [Nat.sub_zero]
  · rw [hw, ← List.filter_filter, filter_row_warningsFrom es clock 0 i (Nat.zero_le i) hi0,
      filter_exceed_entryWarnings]
    simp only [Nat.sub_zero]

/-- C3. A total-hours mismatch error is emitted for a row iff total hours
are positive and the total differs from regular+overtime+holiday+leave by
more than 0.01, and then it is the unique such finding; in particular a
zero total is never flagged. -/
theorem total_mismatch_rule (clock : Clock) (es : List TimesheetEntry) (i : Nat)
    (hi : i < es.length) :
    (validateTimesheet clock es).errors.filter
        (fun f => isTotalMismatchMsg f && f.row == i + 1) =
      (if 0 < (es.get ⟨i, hi⟩).totalHours ∧
          (1 : ℚ) / 100 < |(es.get ⟨i, hi⟩).totalHours - calcTotal (es.get ⟨i, hi⟩)| then
        [⟨i + 1, "totalHours",
          "Total hours (" ++ qStr (es.get ⟨i, hi⟩).totalHours
            ++ ") doesn't match calculated total ("
            ++ qStr (calcTotal (es.get ⟨i, hi⟩)) ++ ")", .error⟩]
      else [])
    ∧ (validateTimesheet clock es).warnings.filter
        (fun f => isTotalMismatchMsg f && f.row == i + 1) = [] := by
  have he : (validateTimesheet clock es).errors = errorsFrom 0 es := rfl
  have hw : (validateTimesheet clock es).warnings = warningsFrom clock 0 es := rfl
  have hi0 : i - 0 < es.length := by simpa using hi
  constructor
  · rw [he, ← List.filter_filter, filter_row_errorsFrom es 0 i (Nat.zero_le i) hi0,
      filter_mismatch_entryErrors]
    simp only [Nat.sub_zero]
  · rw [hw, ← List.filter_filter, filter_row_warningsFrom es clock 0 i (Nat.zero_le i) hi0,
      filter_mismatch_entryWarnings]

/-- C4. For a record whose dates are present, parseable and with end after
start, the long-period warning is emitted iff the span exceeds 14 days, and
never as an error. -/
theorem long_period_rule (clock : Clock) (es : List TimesheetEntry) (i : Nat)
    (hi : i < es.length) (s t : Int)
    (hsd : (es.get ⟨i, hi⟩).startDate ≠ "") (hed : (es.get ⟨i, hi⟩).endDate ≠ "")
    (hs : jsDateMs (es.get ⟨i, hi⟩).startDate = some s)
    (ht : jsDateMs (es.get ⟨i, hi⟩).endDate = some t) (hlt : s < t) :
    (validateTimesheet clock es).warnings.filter
        (fun f => isLongPeriodMsg f && f.row == i + 1) =
      (if 14 < ((t - s : Int) : ℚ) / 86400000 then
        [⟨i + 1, "endDate",
          "Long period (" ++ toString (jsRound (((t - s : Int) : ℚ) / 86400000))
            ++ " days). Typical periods are 7-14 days", .warning⟩]
      else [])
    ∧ (validateTimesheet clock es).errors.filter
        (fun f => isLongPeriodMsg f && f.row == i + 1) = [] := by
  have he : (validateTimesheet clock es).errors = errorsFrom 0 es := rfl
  have hw : (validateTimesheet clock es).warnings = warningsFrom clock 0 es := rfl
  have hi0 : i - 0 < es.length := by simpa using hi
  constructor
  · rw [hw, ← List.filter_filter, filter_row_warningsFrom es clock 0 i (Nat.zero_le i) hi0]
    rw [filter_longPeriod_entryWarnings clock (i + 1) (es.get ⟨i - 0, hi0⟩) s t]
    · exact hsd
    · exact hed
    · exact hs
    · exact ht
  · rw [he, ← List.filter_filter, filter_row_errorsFrom es 0 i (Nat.zero_le i) hi0,
      filter_longPeriod_entryErrors]

/-- C5 (amended). For a record whose status is Absence/Holiday, validate
emits a warning on the `timesheetStatus` field iff regular hours or
overtime hours are strictly positive. -/
theorem absence_holiday_rule (clock : Clock) (es : List TimesheetEntry) (i : Nat)
    (hi : i < es.length) (hst : (es.get ⟨i, hi⟩).timesheetStatus = "Absence/Holiday") :
    (validateTimesheet clock es).warnings.filter
        (fun f => f.field == "timesheetStatus" && f.row == i + 1) =
      if 0 < (es.get ⟨i, hi⟩).regularHours ∨ 0 < (es.get ⟨i, hi⟩).overtimeHours then
        [⟨i + 1, "timesheetStatus",
          "Absence/Holiday status should not have regular or overtime hours", .warning⟩]
      else [] := by
  have hw : (validateTimesheet clock es).warnings = warningsFrom clock 0 es := rfl
  have hi0 : i - 0 < es.length := by simpa using hi
  rw [hw, ← List.filter_filter, filter_row_warningsFrom es clock 0 i (Nat.zero_le i) hi0,
    filter_statusField_absence_entryWarnings clock (i + 1) (es.get ⟨i - 0, hi0⟩) hst]
  simp only [Nat.sub_zero]

unseal Rat.mul Rat.add Rat.sub Rat.inv Rat.ofScientific in
/-- C2, counterexample to the claim as stated: a record with reported hours
over schedule hours and an all-zero breakdown receives two findings on the
`reportedHours` field (the exceed warning and the no-breakdown warning), not
exactly one. -/
theorem reported_exceed_cex :
    entryExceedNoBreakdown.scheduleHours < entryExceedNoBreakdown.reportedHours ∧
    (((validateTimesheet clock0 [entryExceedNoBreakdown]).errors
        ++ (validateTimesheet clock0 [entryExceedNoBreakdown]).warnings).filter
      (fun f => f.field == "reportedHours")).length ≠ 1 := by decide

unseal Rat.mul Rat.add Rat.sub Rat.inv Rat.ofScientific in
/-- C2 witness: Scenario D (reported 50, schedule 40, status Approved)
produces exactly the one exceed warning and no exceed error. -/
theorem reported_exceed_rule_witness :
    (validateTimesheet clock0 [entryD]).errors.filter
        (fun f => isExceedMsg f && f.row == 0 + 1) = []
    ∧ (validateTimesheet clock0 [entryD]).warnings.filter
        (fun f => isExceedMsg f && f.row == 0 + 1) =
      [⟨1, "reportedHours", "Reported hours (50) exceed schedule hours (40)",
        .warning⟩] := by
  refine ⟨?_, ?_⟩
  · rw [(reported_exceed_rule clock0 [entryD] 0 (by decide)).1]
    decide
  · rw [(reported_exceed_rule clock0 [entryD] 0 (by decide)).2]
    decide

unseal Rat.mul Rat.add Rat.sub Rat.inv Rat.ofScientific in
/-- C3 witness: a total 0.02 over the breakdown sum yields exactly one
mismatch error and no mismatch warning. -/
theorem total_mismatch_rule_witness :
    (validateTimesheet clock0 [entryTotalOff]).errors.filter
        (fun f => isTotalMismatchMsg f && f.row == 0 + 1) =
      [⟨1, "totalHours",
        "Total hours (" ++ qStr (2001 / 50) ++ ") doesn't match calculated total ("
          ++ qStr 40 ++ ")", .error⟩]
    ∧ (validateTimesheet clock0 [entryTotalOff]).warnings.filter
        (fun f => isTotalMismatchMsg f && f.row == 0 + 1) = [] := by
  refine ⟨?_, ?_⟩
  · rw [(total_mismatch_rule clock0 [entryTotalOff] 0 (by decide)).1]
    decide
  · exact (total_mismatch_rule clock0 [entryTotalOff] 0 (by decide)).2

unseal Rat.mul Rat.add Rat.sub Rat.inv Rat.ofScientific in
/-- C4 witness: a 15-day period yields exactly one long-period warning and
a 14-day period yields none. -/
theorem long_period_rule_witness :
    ((validateTimesheet clock0 [entry15Day]).warnings.filter
        (fun f => isLongPeriodMsg f && f.row == 0 + 1) =
      [⟨1, "endDate", "Long period (15 days). Typical periods are 7-14 days", .warning⟩])
    ∧ (validateTimesheet clock0 [entry14Day]).warnings.filter
        (fun f => isLongPeriodMsg f && f.row == 0 + 1) = [] := by
  refine ⟨?_, ?_⟩
  · rw [(long_period_rule clock0 [entry15Day] 0 (by decide) 1704067200000 1705363200000
      (by decide) (by decide) (by decide) (by decide) (by decide)).1]
    decide
  · rw [(long_period_rule clock0 [entry14Day] 0 (by decide) 1704067200000 1705276800000
      (by decide) (by decide) (by decide) (by decide) (by decide)).1]
    decide

unseal Rat.mul Rat.add Rat.sub Rat.inv Rat.ofScientific in
/-- C5, counterexample to the claim as stated: an Absence/Holiday record
with regular hours -1 (nonzero) receives no warning on the
`timesheetStatus` field. -/
theorem absence_nonzero_cex :
    entryAbsNeg.timesheetStatus = "Absence/Holiday" ∧
    entryAbsNeg.regularHours ≠ 0 ∧
    (validateTimesheet clock0 [entryAbsNeg]).warnings.filter
      (fun f => f.field == "timesheetStatus") = [] := by decide

unseal Rat.mul Rat.add Rat.sub Rat.inv Rat.ofScientific in
/-- C5 witness: Absence/Holiday with positive regular hours yields exactly
the one status warning. -/
theorem absence_holiday_rule_witness :
    (validateTimesheet clock0 [entryAbsPos]).warnings.filter
        (fun f => f.field == "timesheetStatus" && f.row == 0 + 1) =
      [⟨1, "timesheetStatus",
        "Absence/Holiday status should not have regular or overtime hours", .warning⟩] := by
  rw [absence_holiday_rule clock0 [entryAbsPos] 0 (by decide) (by decide)]
  decide

/-- C10. Every finding in the returned errors sequence has severity
`error` and every finding in the returned warnings sequence has severity
`warning`. -/
theorem validate_severity_agrees (clock : Clock) (es : List TimesheetEntry) :
    (∀ f ∈ (validateTimesheet clock es).errors, f.severity = Severity.error) ∧
    (∀ f ∈ (validateTimesheet clock es).warnings, f.severity = Severity.warning) :=
  ⟨fun f hf => sev_errorsFrom es 0 f hf, fun f hf => sev_warningsFrom es clock 0 f hf⟩

unseal Rat.mul Rat.add Rat.sub Rat.inv Rat.ofScientific in
/-- C10 witness at a record producing one error and one warning. -/
theorem validate_severity_agrees_witness :
    (⟨1, "employeeId", "Employee ID is required", Severity.error⟩ :
      ValidationError).severity = Severity.error ∧
    (⟨1, "scheduleHours", "Schedule hours over 80 seems unusually high for a period",
      Severity.warning⟩ : ValidationError).severity = Severity.warning :=
  ⟨(validate_severity_agrees clock0 [entryBoth]).1 _ (by decide),
   (validate_severity_agrees clock0 [entryBoth]).2 _ (by decide)⟩

/-- C8. Validation is deterministic: two runs over the same record
sequence under the same evaluation-time clock yield identical
(order-preserving) error and warning sequences. -/
theorem validate_deterministic (c1 c2 : Clock) (es : List TimesheetEntry) (h : c1 = c2) :
    (validateTimesheet c1 es).errors = (validateTimesheet c2 es).errors ∧
    (validateTimesheet c1 es).warnings = (validateTimesheet c2 es).warnings := by
  rw [h]
  exact ⟨rfl, rfl⟩

/-- C8 witness at a concrete clock and record list. -/
theorem validate_deterministic_witness :
    (validateTimesheet clock0 [entryA]).errors = (validateTimesheet clock0 [entryA]).errors ∧
    (validateTimesheet clock0 [entryA]).warnings = (validateTimesheet clock0 [entryA]).warnings :=
  validate_deterministic clock0 clock0 [entryA] rfl

/-! ### Whitespace facts for the `parseFloat` / `trim` interaction -/

theorem ws_not_digit {c : Char} (h : isWS c = true) : c.isDigit = false := by
  simp only [isWS, Bool.or_eq_true, beq_iff_eq] at h
  rcases h with ((((h | h) | h) | h) | h) | h <;> subst h <;> rfl

theorem ws_ne_dot {c : Char} (h : isWS c = true) : ¬ c = '.' := by
  simp only [isWS, Bool.or_eq_true, beq_iff_eq] at h
  rcases h with ((((h | h) | h) | h) | h) | h <;> subst h <;> decide

theorem ws_ne_minus {c : Char} (h : isWS c = true) : ¬ c = '-' := by
  simp only [isWS, Bool.or_eq_true, beq_iff_eq] at h
  rcases h with ((((h | h) | h) | h) | h) | h <;> subst h <;> decide

theorem ws_ne_plus {c : Char} (h : isWS c = true) : ¬ c = '+' := by
  simp only [isWS, Bool.or_eq_true, beq_iff_eq] at h
  rcases h with ((((h | h) | h) | h) | h) | h <;> subst h <;> decide

theorem dropWhile_head_not {p : α → Bool} :
    ∀ {l : List α} {c : α} {rest : List α}, l.dropWhile p = c :: rest → p c = false := by
  intro l
  induction l with
  | nil => intro c rest h; cases h
  | cons a l ih =>
    intro c rest h
    rw [List.dropWhile_cons] at h
    split at h
    · exact ih h
    · cases h
      simp_all

/-- `takeWhile isDigit` ignores an all-whitespace suffix. -/
theorem takeWhile_digit_append_ws :
    ∀ (x w : List Char), (∀ c ∈ w, isWS c = true) →
      (x ++ w).takeWhile Char.isDigit = x.takeWhile Char.isDigit := by
  intro x w hw
  induction x with
  | nil =>
    simp only [List.nil_append, List.takeWhile_nil]
    cases w with
    | nil => rfl
    | cons c w2 =>
      rw [List.takeWhile_cons, ws_not_digit (hw c (List.mem_cons_self c w2))]
      rfl
  | cons a x ih =>
    rw [List.cons_append, List.takeWhile_cons, List.takeWhile_cons]
    split <;> simp [ih]

/-- `dropWhile isDigit` of an all-whitespace list is itself. -/
theorem dropWhile_digit_ws (w : List Char) (hw : ∀ c ∈ w, isWS c = true) :
    w.dropWhile Char.isDigit = w := by
  cases w with
  | nil => rfl
  | cons c w2 =>
    rw [List.dropWhile_cons, ws_not_digit (hw c (List.mem_cons_self c w2))]
    rfl

theorem dropWhile_digit_append_ws_nil {x : List Char} (w : List Char)
    (hw : ∀ c ∈ w, isWS c = true) (hx : x.dropWhile Char.isDigit = []) :
    (x ++ w).dropWhile Char.isDigit = w := by
  induction x with
  | nil =>
    simpa using dropWhile_digit_ws w hw
  | cons a x ih =>
    rw [List.cons_append, List.dropWhile_cons]
    rw [List.dropWhile_cons] at hx
    split at hx
    · next h => rw [if_pos h]; exact ih hx
    · cases hx

theorem dropWhile_digit_append_ws_cons {x : List Char} (w : List Char) {d : Char}
    {r : List Char} (hx : x.dropWhile Char.isDigit = d :: r) :
    (x ++ w).dropWhile Char.isDigit = d :: (r ++ w) := by
  induction x with
  | nil => cases hx
  | cons a x ih =>
    rw [List.cons_append, List.dropWhile_cons]
    rw [List.dropWhile_cons] at hx
    split at hx
    · next h => rw [if_pos h]; exact ih hx
    · next h =>
        cases hx
        rw [if_neg h]

/-- An all-whitespace suffix does not change the parsed mantissa. -/
theorem parseMantissa_append_ws (x w : List Char) (hw : ∀ c ∈ w, isWS c = true) :
    parseMantissa (x ++ w) = parseMantissa x := by
  unfold parseMantissa
  rw [takeWhile_digit_append_ws x w hw]
  cases hx : x.dropWhile Char.isDigit with
  | nil =>
    rw [dropWhile_digit_append_ws_nil w hw hx]
    cases w with
    | nil => rfl
    | cons c w2 =>
      have hc : isWS c = true := hw c (List.mem_cons_self c w2)
      simp [List.head?, ws_ne_dot hc]
  | cons d r =>
    rw [dropWhile_digit_append_ws_cons w hx]
    by_cases hd : d = '.'
    · subst hd
      simp only [List.head?, List.tail_cons]
      rw [takeWhile_digit_append_ws r w hw]
    · simp [List.head?, hd]

/-- An all-whitespace suffix does not change the parsed signed number. -/
theorem parseSigned_append_ws (x w : List Char) (hw : ∀ c ∈ w, isWS c = true) :
    parseSigned (x ++ w) = parseSigned x := by
  unfold parseSigned
  cases x with
  | nil =>
    simp only [List.nil_append, List.head?, List.tail]
    cases w with
    | nil => rfl
    | cons c w2 =>
      have hc : isWS c = true := hw c (List.mem_cons_self c w2)
      simp only [List.head?, List.tail_cons]
      rw [if_neg (by simp [ws_ne_minus hc]), if_neg (by simp [ws_ne_plus hc])]
      have : parseMantissa (c :: w2) = parseMantissa ([] ++ (c :: w2)) := by
        rw [List.nil_append]
      rw [this, parseMantissa_append_ws [] (c :: w2) (by intro a ha; exact hw a ha)]
      rfl
  | cons a x2 =>
    have hM : parseMantissa (a :: (x2 ++ w)) = parseMantissa (a :: x2) := by
      rw [← List.cons_append]
      exact parseMantissa_append_ws (a :: x2) w hw
    by_cases ha : a = '-' <;> by_cases hb : a = '+' <;>
      simp_all [List.head?, parseMantissa_append_ws x2 w hw]

/-- Every list is its right-trimmed part followed by an all-whitespace tail. -/
theorem rtrim_decomp (l : List Char) :
    ∃ w, l = rtrimList l ++ w ∧ ∀ c ∈ w, isWS c = true := by
  refine ⟨(l.reverse.takeWhile isWS).reverse, ?_, ?_⟩
  · conv_lhs => rw [← List.reverse_reverse l,
      ← List.takeWhile_append_dropWhile (p := isWS) (l := l.reverse)]
    rw [List.reverse_append]
    rfl
  · intro c hc
    rw [List.mem_reverse] at hc
    exact List.mem_takeWhile_imp hc

/-- JS `parseFloat` is unchanged by `trim`: leading whitespace is skipped by
the parser itself, and the numeric prefix never reaches a trailing
whitespace run. -/
theorem parseNumber_jsTrim (s : String) : parseNumber (jsTrim s) = parseNumber s := by
  show parseSigned ((trimList s.data).dropWhile isWS) =
    parseSigned (s.data.dropWhile isWS)
  obtain ⟨w, hw1, hw2⟩ := rtrim_decomp (s.data.dropWhile isWS)
  have htl : trimList s.data = rtrimList (s.data.dropWhile isWS) := rfl
  rw [htl]
  have hdw : (rtrimList (s.data.dropWhile isWS)).dropWhile isWS =
      rtrimList (s.data.dropWhile isWS) := by
    cases hr : rtrimList (s.data.dropWhile isWS) with
    | nil => rfl
    | cons c t =>
      have hcd : s.data.dropWhile isWS = c :: (t ++ w) := by
        conv_lhs => rw [hw1, hr]
        rfl
      have hc : isWS c = false := dropWhile_head_not hcd
      rw [List.dropWhile_cons, hc]
      rfl
  rw [hdw]
  conv_rhs => rw [hw1]
  exact (parseSigned_append_ws _ w hw2).symm

/-- A string that trims to empty is all whitespace, hence `NaN` under
`parseFloat`. -/
theorem parseNumber_of_trim_empty (s : String) (h : jsTrim s = "") :
    parseNumber s = none := by
  have hd : trimList s.data = [] := congrArg String.data h
  obtain ⟨w, hw1, hw2⟩ := rtrim_decomp (s.data.dropWhile isWS)
  have hrt : rtrimList (s.data.dropWhile isWS) = [] := hd
  rw [hrt, List.nil_append] at hw1
  show parseSigned (s.data.dropWhile isWS) = none
  cases hc : s.data.dropWhile isWS with
  | nil => rfl
  | cons c t =>
    have h1 : isWS c = false := dropWhile_head_not hc
    have h2 : isWS c = true := by
      refine hw2 c ?_
      rw [← hw1, hc]
      exact List.mem_cons_self c t
    rw [h1] at h2
    cases h2

/-- Numeric hour buckets come out of the two-stage pipeline exactly as
`parseFloat` of the raw cell, with `NaN` (and blank) sent to `0`. -/
theorem transform_numeric (f v : String) (hf : numericHourFields.contains f = true) :
    toNumber (transformValue f v) = (parseNumber v).getD 0 := by
  unfold transformValue
  simp only [hf, if_true]
  by_cases h1 : v = "" ∨ jsTrim v = ""
  · rw [if_pos h1]
    have hz : toNumber "0" = 0 := rfl
    rw [hz]
    rcases h1 with h1 | h1
    · subst h1; rfl
    · rw [parseNumber_of_trim_empty v h1]
      rfl
  · rw [if_neg h1]
    by_cases h2 : (parseNumber v).isNone
    · rw [if_pos h2]
      rw [Option.isNone_iff_eq_none] at h2
      rw [h2]
      rfl
    · rw [if_neg h2]
      unfold toNumber
      rw [parseNumber_jsTrim]

/-- Non-numeric fields come out of `transform` trimmed. -/
theorem transform_other (f v : String) (hf : numericHourFields.contains f = false) :
    transformValue f v = jsTrim v := by
  unfold transformValue
  rw [hf]
  simp

/-- C6. Each raw cell of a numeric hour-bucket field becomes the number
`parseFloat` reads from it, with blank or non-numeric cells becoming 0;
every other field's cell is trimmed and kept as a string. -/
theorem parse_cell_normalization (f v : String) :
    (numericHourFields.contains f = true →
      toNumber (transformValue f v) = (parseNumber v).getD 0) ∧
    (numericHourFields.contains f = false →
      transformValue f v = jsTrim v) :=
  ⟨fun hf => transform_numeric f v hf, fun hf => transform_other f v hf⟩

unseal Rat.mul Rat.add Rat.sub Rat.inv Rat.ofScientific in
/-- C6 witness: a numeric cell " 7.5h" parses to 7.5 and a plain cell
"  E42 " is trimmed to "E42". -/
theorem parse_cell_normalization_witness :
    (toNumber (transformValue "scheduleHours" " 7.5h") = (parseNumber " 7.5h").getD 0
      ∧ toNumber (transformValue "scheduleHours" " 7.5h") = 15 / 2)
    ∧ (transformValue "employeeId" "  E42 " = jsTrim "  E42 "
      ∧ transformValue "employeeId" "  E42 " = "E42") :=
  ⟨⟨(parse_cell_normalization "scheduleHours" " 7.5h").1 (by decide), by decide⟩,
   ⟨(parse_cell_normalization "employeeId" "  E42 ").2 (by decide), by decide⟩⟩

/-- C7. If the delimited-text reader reports any error, `parseCSV` fails
with a single fatal error and delivers no records; with no reader errors it
succeeds with every row's record in original order. -/
theorem parse_aborts_on_reader_errors (text : String) :
    ((papaParse text).2 ≠ [] → ∃ m, parseCSV text = .error m) ∧
    ((papaParse text).2 = [] →
      parseCSV text = .ok ((papaParse text).1.map buildEntry)) := by
  constructor
  · intro h
    unfold parseCSV
    cases he : (papaParse text).2 with
    | nil => exact absurd he h
    | cons m rest =>
      exact ⟨"CSV parsing error: " ++ m, rfl⟩
  · intro h
    unfold parseCSV
    rw [h]

unseal Rat.mul Rat.add Rat.sub Rat.inv Rat.ofScientific in
/-- C7 witness: an unterminated quote aborts the parse, and a well-formed
two-column file parses to its one record. -/
theorem parse_aborts_witness :
    (∃ m, parseCSV "a,\"b" = Except.error m) ∧
    parseCSV "Employee ID,Schedule Hours\nE1,40" =
      .ok [{ employeeId := "E1", startDate := "", endDate := "",
             timesheetStatus := "", scheduleHours := 40, reportedHours := 0,
             regularHours := 0, overtimeHours := 0, holidayHours := 0,
             leaveHours := 0, totalHours := 0 }] := by
  constructor
  · exact (parse_aborts_on_reader_errors "a,\"b").1 (by decide)
  · rw [(parse_aborts_on_reader_errors "Employee ID,Schedule Hours\nE1,40").2 (by decide)]
    simp only [Except.ok.injEq]
    decide

theorem csvStep_normal_safe (fld : List Char) (row : List (List Char))
    (rows : List (List (List Char))) (errs : List String) (c : Char)
    (h1 : c ≠ ',') (h2 : c ≠ '"') (h3 : c ≠ '\n') :
    csvStep ⟨fld, row, rows, .normal, errs⟩ c = ⟨fld ++ [c], row, rows, .normal, errs⟩ := by
  show (if c = '"' then _ else if c = ',' then _ else if c = '\n' then _ else _) = _
  rw [if_neg h2, if_neg h1, if_neg h3]

theorem tok_run_normal (s : List Char) :
    ∀ (fld : List Char) (row : List (List Char)) (rows : List (List (List Char)))
      (errs : List String), (∀ c ∈ s, c ≠ ',' ∧ c ≠ '"' ∧ c ≠ '\n') →
      s.foldl csvStep ⟨fld, row, rows, .normal, errs⟩ = ⟨fld ++ s, row, rows, .normal, errs⟩ := by
  induction s with
  | nil => intro fld row rows errs _; simp
  | cons c s ih =>
    intro fld row rows errs hsafe
    have hc := hsafe c (List.mem_cons_self c s)
    rw [List.foldl_cons, csvStep_normal_safe fld row rows errs c hc.1 hc.2.1 hc.2.2,
      ih (fld ++ [c]) row rows errs (fun a ha => hsafe a (List.mem_cons_of_mem c ha))]
    simp

theorem tok_run_quoted (s : List Char) :
    ∀ (fld : List Char) (row : List (List Char)) (rows : List (List (List Char)))
      (errs : List String), (∀ c ∈ s, c ≠ '"') →
      s.foldl csvStep ⟨fld, row, rows, .quoted, errs⟩ = ⟨fld ++ s, row, rows, .quoted, errs⟩ := by
  induction s with
  | nil => intro fld row rows errs _; simp
  | cons c s ih =>
    intro fld row rows errs hsafe
    have hc := hsafe c (List.mem_cons_self c s)
    have hstep : csvStep ⟨fld, row, rows, .quoted, errs⟩ c = ⟨fld ++ [c], row, rows, .quoted, errs⟩ := by
      show (if c = '"' then _ else _) = _
      rw [if_neg hc]
    rw [List.foldl_cons, hstep,
      ih (fld ++ [c]) row rows errs (fun a ha => hsafe a (List.mem_cons_of_mem c ha))]
    simp

theorem csvStep_comma_normal (fld : List Char) (row : List (List Char))
    (rows : List (List (List Char))) (errs : List String) :
    csvStep ⟨fld, row, rows, .normal, errs⟩ ',' = ⟨[], row ++ [fld], rows, .normal, errs⟩ := rfl

theorem csvStep_nl_normal (fld : List Char) (row : List (List Char))
    (rows : List (List (List Char))) (errs : List String) :
    csvStep ⟨fld, row, rows, .normal, errs⟩ '\n' =
      ⟨[], [], rows ++ [row ++ [fld]], .normal, errs⟩ := rfl

theorem csvStep_quote_open (row : List (List Char))
    (rows : List (List (List Char))) (errs : List String) :
    csvStep ⟨[], row, rows, .normal, errs⟩ '"' = ⟨[], row, rows, .quoted, errs⟩ := rfl

theorem csvStep_quote_close (fld : List Char) (row : List (List Char))
    (rows : List (List (List Char))) (errs : List String) :
    csvStep ⟨fld, row, rows, .quoted, errs⟩ '"' = ⟨fld, row, rows, .afterQuote, errs⟩ := rfl

theorem csvStep_comma_afterQuote (fld : List Char) (row : List (List Char))
    (rows : List (List (List Char))) (errs : List String) :
    csvStep ⟨fld, row, rows, .afterQuote, errs⟩ ',' =
      ⟨[], row ++ [fld], rows, .normal, errs⟩ := rfl

theorem tok_one_row (fmt : ℚ → String) (e : TimesheetEntry)
    (fld : List Char) (row : List (List Char)) (rows : List (List (List Char)))
    (errs : List String)
    (h1 : safeChars e.employeeId) (h2 : safeChars e.startDate)
    (h3 : safeChars e.endDate) (h4 : safeChars e.timesheetStatus)
    (h5 : safeChars (fmt e.scheduleHours)) (h6 : safeChars (fmt e.reportedHours))
    (h7 : safeChars (fmt e.regularHours)) (h8 : safeChars (fmt e.overtimeHours))
    (h9 : safeChars (fmt e.holidayHours)) (h10 : safeChars (fmt e.leaveHours))
    (h11 : safeChars (fmt e.totalHours)) :
    ('\n' :: (rowLine fmt e).data).foldl csvStep ⟨fld, row, rows, .normal, errs⟩ =
      ⟨(fmt e.totalHours).data,
       [e.employeeId.data, e.startDate.data, e.endDate.data, e.timesheetStatus.data,
        (fmt e.scheduleHours).data, (fmt e.reportedHours).data, (fmt e.regularHours).data,
        (fmt e.overtimeHours).data, (fmt e.holidayHours).data, (fmt e.leaveHours).data],
       rows ++ [row ++ [fld]], .normal, errs⟩ := by
  have h4q : ∀ c ∈ e.timesheetStatus.data, c ≠ '"' := fun c hc => ((h4 c hc)).2.1
  have t1 := fun fl rw rws er => tok_run_normal e.employeeId.data fl rw rws er h1
  have t2 := fun fl rw rws er => tok_run_normal e.startDate.data fl rw rws er h2
  have t3 := fun fl rw rws er => tok_run_normal e.endDate.data fl rw rws er h3
  have t4 := fun fl rw rws er => tok_run_quoted e.timesheetStatus.data fl rw rws er h4q
  have t5 := fun fl rw rws er => tok_run_normal (fmt e.scheduleHours).data fl rw rws er h5
  have t6 := fun fl rw rws er => tok_run_normal (fmt e.reportedHours).data fl rw rws er h6
  have t7 := fun fl rw rws er => tok_run_normal (fmt e.regularHours).data fl rw rws er h7
  have t8 := fun fl rw rws er => tok_run_normal (fmt e.overtimeHours).data fl rw rws er h8
  have t9 := fun fl rw rws er => tok_run_normal (fmt e.holidayHours).data fl rw rws er h9
  have t10 := fun fl rw rws er => tok_run_normal (fmt e.leaveHours).data fl rw rws er h10
  have t11 := fun fl rw rws er => tok_run_normal (fmt e.totalHours).data fl rw rws er h11
  simp only [rowLine, String.data_append,
    show ("," : String).data = [','] from rfl,
    show (",\"" : String).data = [',', '"'] from rfl,
    show ("\"," : String).data = ['"', ','] from rfl,
    List.foldl_append, List.foldl_cons, List.foldl_nil, List.append_assoc,
    List.cons_append, List.nil_append,
    csvStep_nl_normal, t1, t2, t3, t4, t5, t6, t7, t8, t9, t10, t11,
    csvStep_comma_normal, csvStep_quote_open, csvStep_quote_close,
    csvStep_comma_afterQuote]

/-- Rebuilding a string from its character list is the identity. -/
theorem strMk_data (s : String) : (⟨s.data⟩ : String) = s := rfl

theorem finish_rows (fmt : ℚ → String) :
    ∀ (es : List TimesheetEntry), (∀ e ∈ es, entrySafe fmt e) →
      ∀ (fld : List Char) (row : List (List Char)) (rows : List (List (List Char)))
        (errs : List String),
      csvFinish (((es.map (fun e => '\n' :: (rowLine fmt e).data)).flatten).foldl csvStep
          ⟨fld, row, rows, .normal, errs⟩) =
        ((rows ++ [row ++ [fld]]).map (fun r => r.map (fun f => (⟨f⟩ : String)))
            ++ es.map (rowStrings fmt), errs) := by
  intro es
  induction es with
  | nil =>
    intro _ fld row rows errs
    simp [csvFinish]
  | cons e es2 ih =>
    intro hsafe fld row rows errs
    have he : entrySafe fmt e := hsafe e (List.mem_cons_self e es2)
    have htail : ∀ x ∈ es2, entrySafe fmt x :=
      fun x hx => hsafe x (List.mem_cons_of_mem e hx)
    obtain ⟨k1, k2, k3, k4, k5, k6, k7, k8, k9, k10, k11⟩ := he
    simp only [List.map_cons, List.flatten_cons, List.foldl_append]
    rw [tok_one_row fmt e fld row rows errs k1 k2 k3 k4 k5 k6 k7 k8 k9 k10 k11]
    rw [ih htail]
    simp [rowStrings, strMk_data, List.map_append]

set_option maxRecDepth 4000 in
theorem tok_header :
    exportHeaderLine.data.foldl csvStep csvSt0 =
      ⟨"Total Hours".data,
       ["Employee ID".data, "Start Date".data, "End Date".data,
        "Timesheet Status".data, "Schedule Hours".data, "Reported Hours".data,
        "Regular Hours".data, "Overtime Hours".data, "Holiday Hours".data,
        "Leave Hours".data],
       [], .normal, []⟩ := by decide

theorem export_body_data (fmt : ℚ → String) (es : List TimesheetEntry) :
    ((es.map (fun e => "\n" ++ rowLine fmt e)).foldr (· ++ ·) "").data =
      (es.map (fun e => '\n' :: (rowLine fmt e).data)).flatten := by
  induction es with
  | nil => rfl
  | cons e es2 ih =>
    simp only [List.map_cons, List.foldr_cons, List.flatten_cons, String.data_append, ih]
    rfl

theorem tokenize_export (fmt : ℚ → String) (es : List TimesheetEntry)
    (hsafe : ∀ e ∈ es, entrySafe fmt e) :
    csvTokenize (exportToCSV fmt es) =
      (exportHeaderCells :: es.map (rowStrings fmt), []) := by
  unfold csvTokenize exportToCSV
  rw [String.data_append, export_body_data, List.foldl_append, tok_header,
    finish_rows fmt es hsafe]
  simp [exportHeaderCells, strMk_data]

theorem papaParse_export (fmt : ℚ → String) (es : List TimesheetEntry)
    (hsafe : ∀ e ∈ es, entrySafe fmt e) :
    papaParse (exportToCSV fmt es) =
      (es.map (fun e => (canonFields.zip (rowStrings fmt e)).map
          (fun fv => (fv.1, transformValue fv.1 fv.2))), []) := by
  unfold papaParse
  rw [tokenize_export fmt es hsafe]
  have hfilter : (exportHeaderCells :: es.map (rowStrings fmt)).filter
      (fun r => r ≠ [""]) = exportHeaderCells :: es.map (rowStrings fmt) := by
    rw [List.filter_eq_self]
    intro r hr
    rcases List.mem_cons.mp hr with h | h
    · subst h; decide
    · obtain ⟨e, _, rfl⟩ := List.mem_map.mp h
      simp [rowStrings]
  simp only [hfilter]
  have hhdr : exportHeaderCells.map transformHeader = canonFields := by decide
  simp only [hhdr]
  have hmism : (es.map (rowStrings fmt)).filter
      (fun r => r.length ≠ canonFields.length) = [] := by
    rw [List.filter_eq_nil_iff]
    intro r hr
    obtain ⟨e, _, rfl⟩ := List.mem_map.mp hr
    simp [rowStrings, canonFields]
  rw [hmism]
  simp [List.map_map]

theorem buildEntry_export (fmt : ℚ → String) (e : TimesheetEntry)
    (hid : csvSafe e.employeeId) (hsd : csvSafe e.startDate)
    (hed : csvSafe e.endDate) (hst : csvSafe e.timesheetStatus)
    (n1 : numFmtOk fmt e.scheduleHours) (n2 : numFmtOk fmt e.reportedHours)
    (n3 : numFmtOk fmt e.regularHours) (n4 : numFmtOk fmt e.overtimeHours)
    (n5 : numFmtOk fmt e.holidayHours) (n6 : numFmtOk fmt e.leaveHours)
    (n7 : numFmtOk fmt e.totalHours) :
    buildEntry ((canonFields.zip (rowStrings fmt e)).map
      (fun fv => (fv.1, transformValue fv.1 fv.2))) = e := by
  obtain ⟨id, sd, ed, st, q1, q2, q3, q4, q5, q6, q7⟩ := e
  have hred : buildEntry ((canonFields.zip
      (rowStrings fmt ⟨id, sd, ed, st, q1, q2, q3, q4, q5, q6, q7⟩)).map
      (fun fv => (fv.1, transformValue fv.1 fv.2))) =
      ⟨transformValue "employeeId" id, transformValue "startDate" sd,
       transformValue "endDate" ed, transformValue "timesheetStatus" st,
       toNumber (transformValue "scheduleHours" (fmt q1)),
       toNumber (transformValue "reportedHours" (fmt q2)),
       toNumber (transformValue "regularHours" (fmt q3)),
       toNumber (transformValue "overtimeHours" (fmt q4)),
       toNumber (transformValue "holidayHours" (fmt q5)),
       toNumber (transformValue "leaveHours" (fmt q6)),
       toNumber (transformValue "totalHours" (fmt q7))⟩ := rfl
  rw [hred]
  have hq : ∀ (q : ℚ) (fname : String), numFmtOk fmt q →
      numericHourFields.contains fname = true →
      toNumber (transformValue fname (fmt q)) = q := by
    intro q fname hq hf
    rw [transform_numeric fname (fmt q) hf, hq.1]
    rfl
  have hs : ∀ (v : String) (fname : String), csvSafe v →
      numericHourFields.contains fname = false →
      transformValue fname v = v := by
    intro v fname hv hf
    rw [transform_other fname v hf, hv.2]
  rw [hs id "employeeId" hid (by decide), hs sd "startDate" hsd (by decide),
    hs ed "endDate" hed (by decide), hs st "timesheetStatus" hst (by decide),
    hq q1 "scheduleHours" n1 (by decide), hq q2 "reportedHours" n2 (by decide),
    hq q3 "regularHours" n3 (by decide), hq q4 "overtimeHours" n4 (by decide),
    hq q5 "holidayHours" n5 (by decide), hq q6 "leaveHours" n6 (by decide),
    hq q7 "totalHours" n7 (by decide)]

theorem map_buildEntry_self (fmt : ℚ → String) :
    ∀ (es : List TimesheetEntry), (∀ e ∈ es, stringFieldsSafe e) →
      (∀ e ∈ es, hourFieldsSafe fmt e) →
      (es.map (fun e => (canonFields.zip (rowStrings fmt e)).map
          (fun fv => (fv.1, transformValue fv.1 fv.2)))).map buildEntry = es := by
  intro es
  induction es with
  | nil => intro _ _; rfl
  | cons e es2 ih =>
    intro hsafe hnum
    obtain ⟨a1, a2, a3, a4⟩ := hsafe e (List.mem_cons_self e es2)
    obtain ⟨b1, b2, b3, b4, b5, b6, b7⟩ := hnum e (List.mem_cons_self e es2)
    simp only [List.map_cons]
    rw [buildEntry_export fmt e a1 a2 a3 a4 b1 b2 b3 b4 b5 b6 b7,
      ih (fun x hx => hsafe x (List.mem_cons_of_mem e hx))
        (fun x hx => hnum x (List.mem_cons_of_mem e hx))]

/-- C9 (amended). Export followed by `parseCSV` returns the original
record sequence provided each string field is delimiter/quote/newline-free
and trim-invariant and the numeric formatter is exact and delimiter-free
(the spec's "modulo numeric string formatting"). -/
theorem export_roundtrip (fmt : ℚ → String) (es : List TimesheetEntry)
    (hsafe : ∀ e ∈ es, stringFieldsSafe e)
    (hnum : ∀ e ∈ es, hourFieldsSafe fmt e) :
    parseCSV (exportToCSV fmt es) = .ok es := by
  have hes : ∀ e ∈ es, entrySafe fmt e := by
    intro e he
    obtain ⟨a1, a2, a3, a4⟩ := hsafe e he
    obtain ⟨b1, b2, b3, b4, b5, b6, b7⟩ := hnum e he
    exact ⟨a1.1, a2.1, a3.1, a4.1, b1.2, b2.2, b3.2, b4.2, b5.2, b6.2, b7.2⟩
  unfold parseCSV
  rw [papaParse_export fmt es hes]
  simp only []
  rw [map_buildEntry_self fmt es hsafe hnum]

set_option maxRecDepth 8000 in
unseal Rat.mul Rat.add Rat.sub Rat.inv Rat.ofScientific in
/-- C9, counterexample to the claim as stated: an employee id with a
leading space does not survive the export/parse round trip (the parser
trims it), so the parsed sequence differs from the original. -/
theorem export_roundtrip_cex :
    (parseCSV (exportToCSV intNumFmt [entryBadId])).toOption ≠ some [entryBadId] ∧
    (parseCSV (exportToCSV intNumFmt [entryBadId])).toOption =
      some [{ entryBadId with employeeId := "a" }] := by decide

set_option maxRecDepth 8000 in
unseal Rat.mul Rat.add Rat.sub Rat.inv Rat.ofScientific in
/-- C9 witness: a concrete record with integral hours round-trips
exactly. -/
theorem export_roundtrip_witness :
    parseCSV (exportToCSV intNumFmt [entryA]) = .ok [entryA] :=
  export_roundtrip intNumFmt [entryA] (by decide) (by decide)
